import Mathlib

/-!
Verification development for the single-file CPG marketing content generator
(`cpg_app_1.py`).  The Python source is shallowly embedded: each Lean
definition mirrors one Python function or constant of the source, with
machine-level details (the `re` engine, Python dicts, exceptions) modelled
explicitly.  Theorems at the end of the file settle the specification claims
about the compliance evaluator, the verdict function, prompt composition,
generation-reply parsing, variant enrichment and the orchestration loop.
-/

set_option maxHeartbeats 1000000

/-! ## Word-boundary pattern matching

Every rule pattern in `build_rules` has the shape `\b(alt1|alt2|...)\b`
compiled with `re.IGNORECASE`, where each alternative is a literal phrase
(optional-suffix forms such as `cures?` and the character class `[ -]` are
expanded into explicit literals in greedy order, which is observationally
equivalent for these patterns).  `re.findall` with one capture group returns,
for each non-overlapping match found scanning left to right, the text matched
by the group, in original case.  The functions below implement exactly that
semantics over `List Char`.
-/

/-- Python `\w` over the ASCII texts involved: letters, digits, underscore. -/
def isWordChar (c : Char) : Bool :=
  c.isAlphanum || c = '_'

/-- Case-insensitive character comparison, as `re.IGNORECASE` does. -/
def lowerEq (a b : Char) : Bool :=
  a.toLower = b.toLower

/-- Wordness of the character on one side of a position; absence of a
character (start or end of text) counts as non-word, as for `\b`. -/
def isWordOpt : Option Char → Bool
  | none => false
  | some c => isWordChar c

/-- Try to match the literal `lit` (case-insensitively) at the head of
`rest`; on success return the matched text (case as in `rest`) and the
remainder. -/
def matchLit : List Char → List Char → Option (List Char × List Char)
  | [], rest => some ([], rest)
  | _ :: _, [] => none
  | l :: ls, r :: rs =>
    if lowerEq l r then
      match matchLit ls rs with
      | some (cap, rem) => some (r :: cap, rem)
      | none => none
    else none

/-- Try the alternatives of the group in order at the current position,
requiring a `\b` word boundary on both sides of the match (`prev` is the
character just before the position, if any).  The regex engine backtracks
into the alternation when a trailing boundary fails, so the next
alternative is tried. -/
def tryAlts : List (List Char) → Option Char → List Char → Option (List Char × List Char)
  | [], _, _ => none
  | a :: as, prev, s =>
    match matchLit a s with
    | some (cap, rem) =>
      match cap.head?, cap.getLast? with
      | some first, some last =>
        if (isWordOpt prev != isWordChar first) && (isWordChar last != isWordOpt rem.head?)
        then some (cap, rem)
        else tryAlts as prev s
      | _, _ => tryAlts as prev s
    | none => tryAlts as prev s

/-- Scan the text left to right; at each position try the alternation, on a
match record the captured text and continue right after it (non-overlapping
matches, as `findall`), otherwise advance one character.  `fuel` bounds the
number of iterations; every iteration consumes at least one character, so
`length + 1` fuel is always sufficient. -/
def scanAux (alts : List (List Char)) : Nat → Option Char → List Char → List (List Char)
  | 0, _, _ => []
  | Nat.succ fuel, prev, s =>
    match s with
    | [] => []
    | c :: rest =>
      match tryAlts alts prev s with
      | some (cap, rem) => cap :: scanAux alts fuel cap.getLast? rem
      | none => scanAux alts fuel (some c) rest

/-- `re.findall` for a pattern `\b(alt1|alt2|...)\b` compiled with
`re.IGNORECASE`: the list of group captures of the non-overlapping matches,
in text order and original case. -/
def findallAnch (alts : List String) (text : String) : List String :=
  (scanAux (alts.map String.data) (text.data.length + 1) none text.data).map
    (fun cs => String.mk cs)

/-! ## Rule catalog (`build_rules`, `COMPLIANCE_RULES`) -/

/-- One compliance rule: display name, severity string, and the literal
alternatives of its boundary-anchored pattern (see `findallAnch`). -/
structure Rule where
  rule : String
  severity : String
  alts : List String
deriving DecidableEq

/-- First-match lookup in an association list keyed by strings; models
Python `dict` lookup (keys are unique in the literals below). -/
def assocLookup {α : Type} : List (String × α) → String → Option α
  | [], _ => none
  | (k0, v0) :: rest, k => if k0 = k then some v0 else assocLookup rest k

/-- The static rule table of `build_rules`, with each regex pattern expanded
into its literal alternatives (`prevents?` becomes `prevents`/`prevent` in
greedy order, `chemical[ -]free` becomes its two spellings, etc.). -/
def build_rules : List (String × List Rule) :=
  [ ("Skincare",
      [ ⟨"No disease treatment claims", "critical", ["cure", "treat", "heal", "remedy"]⟩
      , ⟨"No guaranteed results claims", "critical", ["guaranteed", "100%", "always works", "permanent"]⟩
      , ⟨"Must include \x27results may vary\x27 for efficacy claims", "warning", ["clinically proven", "dermatologist tested"]⟩
      , ⟨"No comparative superiority without evidence", "warning", ["best", "#1", "number one", "superior to"]⟩
      , ⟨"FDA disclaimer required for structure/function claims", "info", ["supports", "promotes", "helps maintain"]⟩ ])
  , ("Food & Beverage",
      [ ⟨"No disease prevention claims", "critical", ["prevents", "prevent", "cures", "cure", "treats", "treat", "fights disease", "fight disease"]⟩
      , ⟨"No misleading health claims", "critical", ["superfood", "miracle", "magic"]⟩
      , ⟨"Allergen info should be accessible", "warning", ["contains", "may contain", "allergen"]⟩
      , ⟨"Nutritional claims must be substantiated", "warning", ["high protein", "low sugar", "zero calorie", "no sugar"]⟩
      , ⟨"Organic claims require certification", "info", ["organic", "certified organic"]⟩ ])
  , ("Household",
      [ ⟨"No absolute safety claims", "critical", ["100% safe", "completely safe", "totally harmless"]⟩
      , ⟨"No \x27chemical-free\x27 claims (misleading)", "warning", ["chemical free", "chemical-free", "no chemicals"]⟩
      , ⟨"EPA certification must be accurate", "critical", ["EPA certified", "EPA approved"]⟩
      , ⟨"Efficacy claims need qualification", "warning", ["kills 99", "eliminates all", "destroys"]⟩ ])
  , ("Haircare",
      [ ⟨"No permanent change claims without evidence", "critical", ["permanent", "forever", "irreversible"]⟩
      , ⟨"No medical claims", "critical", ["treats hair loss", "treat hair loss", "cures dandruff", "cure dandruff", "medical"]⟩
      , ⟨"Time-based claims need substantiation", "warning", ["instant", "immediate", "overnight"]⟩ ])
  , ("Baby Care",
      [ ⟨"No absolute safety claims", "critical", ["100% safe", "completely safe", "zero risk"]⟩
      , ⟨"Medical endorsement must be verified", "critical", ["doctor recommended", "clinically proven", "medically approved"]⟩
      , ⟨"Age appropriateness must be specified", "warning", ["all ages", "any age", "newborn"]⟩
      , ⟨"Ingredient transparency required", "info", ["natural", "organic", "pure"]⟩ ]) ]

/-- `COMPLIANCE_RULES = build_rules()`. -/
def COMPLIANCE_RULES : List (String × List Rule) := build_rules

/-- `COMPLIANCE_RULES.get(category, [])`. -/
def rulesFor (category : String) : List Rule :=
  (assocLookup COMPLIANCE_RULES category).getD []

/-! ## Compliance evaluator (`check_compliance`, `get_compliance_score`) -/

/-- One emitted issue dict `{"rule": ..., "severity": ..., "matches": ...}`. -/
structure Issue where
  rule : String
  severity : String
  matchedTerms : List String
deriving DecidableEq

/-- Lexicographic comparison of character sequences by code point, the
order Python uses to compare strings. -/
def charListLe : List Char → List Char → Bool
  | [], _ => true
  | _ :: _, [] => false
  | a :: as, b :: bs =>
    if a.val.toNat < b.val.toNat then true
    else if b.val.toNat < a.val.toNat then false
    else charListLe as bs

/-- Python string order `a <= b`: lexicographic by code point. -/
def strLe (a b : String) : Bool :=
  charListLe a.data b.data

/-- Python `sorted(set(l))`: the lexicographically sorted list of the
distinct elements of `l`. -/
def uniqueSorted (l : List String) : List String :=
  List.insertionSort (fun a b => strLe a b = true) l.dedup

/-- `check_compliance(text, category)`: for each rule of the category, in
declaration order, run `findall`; if there is at least one match emit one
issue carrying the rule name, severity and the sorted deduplicated match
set. -/
def check_compliance (text : String) (category : String) : List Issue :=
  (rulesFor category).filterMap (fun r =>
    let ms := findallAnch r.alts text
    if ms.isEmpty then none
    else some ⟨r.rule, r.severity, uniqueSorted ms⟩)

/-- `get_compliance_score(issues)`: severity dominance
critical > warning > info > none, rendered as the verdict strings of the
source (`"Needs Review"`, `"Caution"`, `"Minor Notes"`, `"Compliant"`,
i.e. the spec verdicts NeedsReview, Caution, MinorNotes, Compliant). -/
def get_compliance_score (issues : List Issue) : String :=
  if issues.any (fun i => i.severity == "critical") then "Needs Review"
  else if issues.any (fun i => i.severity == "warning") then "Caution"
  else if issues.any (fun i => i.severity == "info") then "Minor Notes"
  else "Compliant"

/-! ## JSON values and Python dict operations

`json.loads` produces nested dynamically typed values; variants of the
generation reply are such values.  Python `dict` objects preserve insertion
order; assignment to an existing key updates it in place, assignment to a
fresh key appends it.
-/

/-- A parsed JSON value, as produced by `json.loads`.  Numbers are modelled
as integers (no reply field examined by the program is fractional). -/
inductive Json where
  | null
  | bool (b : Bool)
  | num (n : Int)
  | str (s : String)
  | arr (items : List Json)
  | obj (fields : List (String × Json))

/-- Python `d[k] = v` on an insertion-ordered dict: update in place if the
key exists, append otherwise. -/
def dictSet : List (String × Json) → String → Json → List (String × Json)
  | [], k, v => [(k, v)]
  | (k0, v0) :: rest, k, v =>
    if k0 = k then (k0, v) :: rest else (k0, v0) :: dictSet rest k v

/-! ## Generation reply handling (`generate_for_channel`, reply part)

`generate_for_channel` concatenates the reply content fragments, strips
fence markers and runs `json.loads`; we model from the parsed value.
The source then runs `variants = parsed.get("variants", [])` followed by
`if not isinstance(variants, list): raise RuntimeError(...)`.
-/

/-- The `variants` extraction of `generate_for_channel`: `.get` with a
list default, then the `isinstance(..., list)` check.  A non-dict parsed
value has no `.get` attribute, which raises (`AttributeError`). -/
def extractVariants (parsed : Json) : Except String (List Json) :=
  match parsed with
  | .obj fields =>
    match (assocLookup fields "variants").getD (Json.arr []) with
    | .arr items => .ok items
    | _ => .error "Model response did not include a valid \x27variants\x27 array."
  | _ => .error "AttributeError: \x27get\x27"

/-! ## Static reference data (`BRAND_STYLE_GUIDES`, `CHANNELS`) -/

/-- One value of the `BRAND_STYLE_GUIDES` table. -/
structure BrandGuide where
  tone : String
  voiceTraits : List String
  doWords : List String
  dontWords : List String
  tagline : String
deriving DecidableEq

/-- The `BRAND_STYLE_GUIDES` dict, in source order. -/
def BRAND_STYLE_GUIDES : List (String × BrandGuide) :=
  [ ("PureGlow Naturals",
      ⟨"Sophisticated, science-backed yet approachable, empowering",
       ["Clean", "Confident", "Educational", "Aspirational"],
       ["radiance", "transform", "clinical-grade", "pure", "glow", "reveal"],
       ["cheap", "miracle", "cure", "guaranteed results", "anti-aging"],
       "Science Meets Nature"⟩)
  , ("FreshBite Co.",
      ⟨"Energetic, fun, motivational, straightforward",
       ["Bold", "Active", "Real", "Community-driven"],
       ["fuel", "crush it", "real food", "power", "clean", "strong"],
       ["diet", "low-cal", "skinny", "cheat meal", "guilt"],
       "Fuel Your Fire"⟩)
  , ("EcoClean Home",
      ⟨"Warm, trustworthy, eco-conscious, family-friendly",
       ["Caring", "Transparent", "Sustainable", "Reliable"],
       ["protect", "pure", "planet-friendly", "safe", "naturally", "home"],
       ["toxic", "chemical-free (misleading)", "100% safe", "kills all"],
       "Clean Home, Clean Planet"⟩)
  , ("ZenBrew",
      ⟨"Mindful, premium, intellectual, calm confidence",
       ["Wise", "Serene", "Elevated", "Intentional"],
       ["ritual", "clarity", "flow state", "craft", "mindful", "elevate"],
       ["wired", "buzzed", "caffeine hit", "basic", "average"],
       "Clarity in Every Cup"⟩)
  , ("LuxeLocks Paris",
      ⟨"Luxurious, French-inspired elegance, expert authority",
       ["Glamorous", "Expert", "Indulgent", "Confident"],
       ["luxe", "transform", "salon-grade", "nourish", "silk", "radiant"],
       ["cheap", "basic", "quick fix", "drugstore", "no-fuss"],
       "L\x27Art du Cheveu"⟩)
  , ("TinyTots",
      ⟨"Tender, reassuring, pure, parent-to-parent",
       ["Gentle", "Trustworthy", "Pure", "Loving"],
       ["gentle", "pure", "precious", "nurture", "safe", "soft"],
       ["tough", "strong", "powerful", "aggressive", "extreme"],
       "Pure Love, Pure Care"⟩) ]

/-- One entry of `PRODUCT_DATABASE` (the shape the composer reads). -/
structure Product where
  id : String
  name : String
  category : String
  brand : String
  features : List String
  benefits : List String
  usage : String
  targetAudience : String
  pricePoint : String
  usp : String
deriving DecidableEq

/-- One entry of `CHANNELS`. -/
structure Channel where
  id : String
  name : String
  maxLength : Nat
  format : String
deriving DecidableEq

/-- The `CHANNELS` table, in source order. -/
def CHANNELS : List Channel :=
  [ ⟨"instagram", "Instagram Post", 2200, "Visual-first caption with hashtags"⟩
  , ⟨"facebook", "Facebook Ad", 1000, "Engaging ad copy with CTA"⟩
  , ⟨"email", "Email Campaign", 3000, "Subject line + body with sections"⟩
  , ⟨"twitter", "X/Twitter Post", 280, "Concise, punchy with hashtags"⟩
  , ⟨"product_page", "Product Page", 5000, "SEO-optimized product description"⟩
  , ⟨"print_ad", "Print Ad", 500, "Headline + body + tagline"⟩
  , ⟨"tvc_script", "TV/Video Script", 3000, "30-second script with visuals"⟩
  , ⟨"sms", "SMS/WhatsApp", 160, "Short promotional message"⟩ ]

/-! ## Prompt composition (`generate_for_channel`, composition part) -/

/-- The prompt-composition prefix of `generate_for_channel` (source lines
288-337): `BRAND_STYLE_GUIDES[product["brand"]]` raises `KeyError` for an
unknown brand, while `COMPLIANCE_RULES.get(product["category"], [])`
silently yields the empty rule list for an unknown category; the system
and user prompt strings are then rendered from the f-string templates. -/
def compose_prompts (product : Product) (channel : Channel) (tone : String)
    (season : String) (num_variants : Nat) (custom_prompt : String) :
    Except String (String × String) :=
  match assocLookup BRAND_STYLE_GUIDES product.brand with
  | none => .error ("KeyError: " ++ product.brand)
  | some brand =>
    let category_rules := rulesFor product.category
    let rules_text := String.intercalate "\n"
      (category_rules.map (fun r => "- " ++ r.severity.toUpper ++ ": " ++ r.rule))
    let system_prompt :=
      "You are an expert CPG marketing copywriter. You produce high-converting, brand-compliant marketing content.\n\n" ++
      "BRAND VOICE GUIDE for \"" ++ product.brand ++ "\":\n" ++
      "- Tone: " ++ brand.tone ++ "\n" ++
      "- Voice Traits: " ++ String.intercalate ", " brand.voiceTraits ++ "\n" ++
      "- Preferred Words: " ++ String.intercalate ", " brand.doWords ++ "\n" ++
      "- Avoid These Words: " ++ String.intercalate ", " brand.dontWords ++ "\n" ++
      "- Brand Tagline: " ++ brand.tagline ++ "\n\n" ++
      "COMPLIANCE RULES for " ++ product.category ++ ":\n" ++
      rules_text ++ "\n\n" ++
      "You MUST respond ONLY with valid JSON. No markdown and no code fences.\n" ++
      "Schema:\n" ++
      "\x7b\n  \"variants\": [\n    \x7b\n      \"label\": \"Variant A label\",\n      \"headline\": \"attention-grabbing headline\",\n      \"body\": \"the main marketing copy\",\n      \"cta\": \"call to action\",\n      \"hashtags\": [\"tag1\", \"tag2\"],\n      \"complianceNotes\": \"any compliance considerations\"\n    \x7d\n  ]\n\x7d"
    let user_prompt :=
      "Create " ++ toString num_variants ++ " distinct marketing content variants for:\n\n" ++
      "PRODUCT: " ++ product.name ++ "\n" ++
      "CATEGORY: " ++ product.category ++ "\n" ++
      "FEATURES: " ++ String.intercalate ", " product.features ++ "\n" ++
      "BENEFITS: " ++ String.intercalate ", " product.benefits ++ "\n" ++
      "USAGE: " ++ product.usage ++ "\n" ++
      "TARGET AUDIENCE: " ++ product.targetAudience ++ "\n" ++
      "PRICE: " ++ product.pricePoint ++ "\n" ++
      "USP: " ++ product.usp ++ "\n\n" ++
      "CHANNEL: " ++ channel.name ++ "\n" ++
      "FORMAT: " ++ channel.format ++ "\n" ++
      "MAX LENGTH: " ++ toString channel.maxLength ++ " characters\n" ++
      "CAMPAIGN TONE: " ++ tone ++ "\n" ++
      "SEASON/OCCASION: " ++ season ++ "\n" ++
      (if custom_prompt ≠ "" then "ADDITIONAL DIRECTION: " ++ custom_prompt else "") ++
      "\n\nEach variant should use a different creative angle and be useful for A/B testing."
    .ok (system_prompt, user_prompt)

/-! ## Orchestration (`main`, generate-clicked branch) -/

/-- `v.get(key, '')` as used to build the compliance text: the reply fields
interpolated here are strings when present (a missing field contributes the
empty default). -/
def getText (fields : List (String × Json)) (k : String) : String :=
  match assocLookup fields k with
  | some (Json.str s) => s
  | _ => ""

/-- The serialized form of the issue dicts assigned to
`v["_compliance_issues"]`. -/
def issuesJson (issues : List Issue) : Json :=
  .arr (issues.map (fun i =>
    .obj [ ("rule", .str i.rule)
         , ("severity", .str i.severity)
         , ("matches", .arr (i.matchedTerms.map Json.str)) ]))

/-- Enrichment of one raw variant (source lines 456-460): build the text
`headline + " " + body + " " + cta`, evaluate compliance, then assign the
`_compliance_issues` and `_compliance_score` keys on the variant dict.  A
non-dict variant has no item assignment and raises. -/
def enrich_variant (category : String) (v : Json) : Except String Json :=
  match v with
  | .obj fields =>
    let text := getText fields "headline" ++ " " ++ getText fields "body" ++ " " ++ getText fields "cta"
    let issues := check_compliance text category
    .ok (.obj (dictSet (dictSet fields "_compliance_issues" (issuesJson issues))
                "_compliance_score" (.str (get_compliance_score issues))))
  | _ => .error "TypeError: item assignment on non-dict variant"

/-- The `for v in variants` enrichment loop: builds the enriched list in
order, aborting the run on the first failure. -/
def enrich_all (category : String) : List Json → Except String (List Json)
  | [] => .ok []
  | v :: rest =>
    match enrich_variant category v with
    | .error e => .error e
    | .ok e =>
      match enrich_all category rest with
      | .error err => .error err
      | .ok es => .ok (e :: es)

/-- One accumulated per-channel result row
`{"channel_id": ..., "channel_name": ..., "variants": ...}`. -/
structure ChannelResult where
  channel_id : String
  channel_name : String
  variants : List Json

/-- The sequential per-channel loop of `main` (source lines 443-462): for
each selected channel in order, call the generation client (abstracted as
`gen`, covering prompt composition, the network call and reply parsing),
enrich every variant, and append the channel's result row.  The first
exception aborts the whole run (the `try` block discards partial results). -/
def run_channels (category : String) (gen : Channel → Except String (List Json)) :
    List Channel → Except String (List ChannelResult)
  | [] => .ok []
  | c :: rest =>
    match gen c with
    | .error e => .error e
    | .ok variants =>
      match enrich_all category variants with
      | .error e => .error e
      | .ok enriched =>
        match run_channels category gen rest with
        | .error e => .error e
        | .ok others => .ok (⟨c.id, c.name, enriched⟩ :: others)

/-- The generate-clicked branch of `main` (source lines 434-463): an empty
channel selection is rejected with the validation message before the
generation loop runs; otherwise the loop produces one result row per
selected channel in request order. -/
def generate_clicked (category : String) (channels : List Channel)
    (gen : Channel → Except String (List Json)) : Except String (List ChannelResult) :=
  if channels.isEmpty then .error "Select at least one channel."
  else run_channels category gen channels

/-! ## Supporting lemmas -/

lemma charListLe_total : ∀ as bs : List Char, charListLe as bs = true ∨ charListLe bs as = true := by
  intro as
  induction as with
  | nil => intro bs; left; rfl
  | cons a as ih =>
    intro bs
    cases bs with
    | nil => right; rfl
    | cons b bs =>
      rcases Nat.lt_trichotomy a.val.toNat b.val.toNat with hlt | heq | hgt
      · left; simp [charListLe, hlt]
      · rcases ih bs with h | h
        · left; simp [charListLe, heq, h]
        · right; simp [charListLe, heq, h]
      · right; simp [charListLe, hgt]

lemma charListLe_trans : ∀ as bs cs : List Char,
    charListLe as bs = true → charListLe bs cs = true → charListLe as cs = true := by
  intro as
  induction as with
  | nil => intro bs cs _ _; rfl
  | cons a as ih =>
    intro bs cs h1 h2
    cases bs with
    | nil => simp [charListLe] at h1
    | cons b bs =>
      cases cs with
      | nil => simp [charListLe] at h2
      | cons c cs =>
        rcases Nat.lt_trichotomy a.val.toNat b.val.toNat with hab | hab | hab
        · rcases Nat.lt_trichotomy b.val.toNat c.val.toNat with hbc | hbc | hbc
          · simp [charListLe, Nat.lt_trans hab hbc]
          · simp [charListLe, hbc ▸ hab]
          · simp [charListLe, hbc, Nat.lt_asymm hbc] at h2
        · rcases Nat.lt_trichotomy b.val.toNat c.val.toNat with hbc | hbc | hbc
          · simp [charListLe, hab ▸ hbc]
          · have hac : a.val.toNat = c.val.toNat := hab.trans hbc
            simp only [charListLe, hab, lt_irrefl, if_false] at h1
            simp only [charListLe, hbc, lt_irrefl, if_false] at h2
            simp [charListLe, hac, ih bs cs h1 h2]
          · simp [charListLe, hbc, Nat.lt_asymm hbc] at h2
        · simp [charListLe, hab, Nat.lt_asymm hab] at h1

instance : IsTotal String (fun a b => strLe a b = true) :=
  ⟨fun a b => charListLe_total a.data b.data⟩

instance : IsTrans String (fun a b => strLe a b = true) :=
  ⟨fun a b c => charListLe_trans a.data b.data c.data⟩

lemma uniqueSorted_sorted (l : List String) :
    (uniqueSorted l).Sorted (fun a b => strLe a b = true) :=
  List.sorted_insertionSort _ _

lemma uniqueSorted_nodup (l : List String) : (uniqueSorted l).Nodup :=
  (List.perm_insertionSort (fun a b => strLe a b = true) l.dedup).symm.nodup
    (List.nodup_dedup l)

lemma uniqueSorted_ne_nil {l : List String} (h : l ≠ []) : uniqueSorted l ≠ [] := by
  intro hnil
  have hperm := List.perm_insertionSort (fun a b => strLe a b = true) l.dedup
  rw [uniqueSorted] at hnil
  rw [hnil] at hperm
  exact h ((List.dedup_eq_nil l).mp hperm.symm.eq_nil)

lemma assocLookup_append_none {α : Type} {l1 l2 : List (String × α)} {k : String}
    (h1 : assocLookup l1 k = none) (h2 : assocLookup l2 k = none) :
    assocLookup (l1 ++ l2) k = none := by
  induction l1 with
  | nil => simpa using h2
  | cons p rest ih =>
    obtain ⟨k0, v0⟩ := p
    simp only [assocLookup, List.cons_append] at h1 ⊢
    by_cases hk : k0 = k
    · simp [hk] at h1
    · simp only [if_neg hk] at h1 ⊢
      exact ih h1

lemma dictSet_of_lookup_none {l : List (String × Json)} {k : String}
    (h : assocLookup l k = none) (v : Json) : dictSet l k v = l ++ [(k, v)] := by
  induction l with
  | nil => rfl
  | cons p rest ih =>
    obtain ⟨k0, v0⟩ := p
    simp only [assocLookup] at h
    by_cases hk : k0 = k
    · simp [hk] at h
    · simp only [dictSet, if_neg hk, List.cons_append]
      rw [ih (by simpa [if_neg hk] using h)]

lemma filterMap_map_sublist {α β γ : Type} (f : α → Option β) (g : β → γ) (g' : α → γ)
    (H : ∀ a b, f a = some b → g b = g' a) :
    ∀ l : List α, List.Sublist ((l.filterMap f).map g) (l.map g') := by
  intro l
  induction l with
  | nil => simp
  | cons a l ih =>
    cases hfa : f a with
    | none =>
      simp only [List.filterMap_cons, hfa, List.map_cons]
      exact ih.cons _
    | some b =>
      simp only [List.filterMap_cons, hfa, List.map_cons]
      rw [H a b hfa]
      exact ih.cons₂ _

lemma run_channels_ok_map (category : String) (gen : Channel → Except String (List Json)) :
    ∀ (channels : List Channel) (results : List ChannelResult),
      run_channels category gen channels = Except.ok results →
      results.map (fun r => (r.channel_id, r.channel_name)) =
        channels.map (fun c => (c.id, c.name)) := by
  intro channels
  induction channels with
  | nil =>
    intro results h
    simp only [run_channels, Except.ok.injEq] at h
    subst h
    rfl
  | cons c rest ih =>
    intro results h
    cases hg : gen c with
    | error e => simp [run_channels, hg] at h
    | ok variants =>
      cases he : enrich_all category variants with
      | error e => simp [run_channels, hg, he] at h
      | ok enriched =>
        cases hr : run_channels category gen rest with
        | error e => simp [run_channels, hg, he, hr] at h
        | ok others =>
          simp only [run_channels, hg, he, hr, Except.ok.injEq] at h
          subst h
          simp [ih others hr]

/-! ## Claim theorems -/

/-- C1: the verdict is determined by severity dominance on the issues
present — any critical issue yields Needs Review; otherwise any warning
yields Caution; otherwise any info yields Minor Notes; the empty issue list
(in particular, the evaluation of any text with zero rule-pattern matches in
its category) yields Compliant. -/
theorem verdict_dominance :
    (∀ issues : List Issue,
      ((∃ i ∈ issues, i.severity = "critical") →
        get_compliance_score issues = "Needs Review") ∧
      ((∀ i ∈ issues, i.severity ≠ "critical") → (∃ i ∈ issues, i.severity = "warning") →
        get_compliance_score issues = "Caution") ∧
      ((∀ i ∈ issues, i.severity ≠ "critical") → (∀ i ∈ issues, i.severity ≠ "warning") →
        (∃ i ∈ issues, i.severity = "info") →
        get_compliance_score issues = "Minor Notes") ∧
      (issues = [] → get_compliance_score issues = "Compliant")) ∧
    (∀ text category : String,
      (∀ r ∈ rulesFor category, findallAnch r.alts text = []) →
      check_compliance text category = [] ∧
      get_compliance_score (check_compliance text category) = "Compliant") := by
  constructor
  · intro issues
    refine ⟨?_, ?_, ?_, ?_⟩
    · rintro ⟨i, hi, hs⟩
      have hc : issues.any (fun i => i.severity == "critical") = true :=
        List.any_eq_true.mpr ⟨i, hi, by simp [hs]⟩
      simp [get_compliance_score, hc]
    · intro hnc hw
      obtain ⟨i, hi, hs⟩ := hw
      have hc : issues.any (fun i => i.severity == "critical") = false := by
        rw [List.any_eq_false]
        intro x hx
        simp [hnc x hx]
      have hwt : issues.any (fun i => i.severity == "warning") = true :=
        List.any_eq_true.mpr ⟨i, hi, by simp [hs]⟩
      simp [get_compliance_score, hc, hwt]
    · intro hnc hnw hii
      obtain ⟨i, hi, hs⟩ := hii
      have hc : issues.any (fun i => i.severity == "critical") = false := by
        rw [List.any_eq_false]
        intro x hx
        simp [hnc x hx]
      have hw : issues.any (fun i => i.severity == "warning") = false := by
        rw [List.any_eq_false]
        intro x hx
        simp [hnw x hx]
      have hit : issues.any (fun i => i.severity == "info") = true :=
        List.any_eq_true.mpr ⟨i, hi, by simp [hs]⟩
      simp [get_compliance_score, hc, hw, hit]
    · rintro rfl
      rfl
  · intro text category h
    have hcc : check_compliance text category = [] := by
      simp only [check_compliance]
      rw [List.filterMap_eq_nil_iff]
      intro r hr
      simp [h r hr]
    exact ⟨hcc, by rw [hcc]; rfl⟩

/-- Witness for C1 at concrete inputs. -/
theorem verdict_dominance_witness :
    get_compliance_score [⟨"No disease treatment claims", "critical", ["cure"]⟩] =
      "Needs Review" ∧
    check_compliance "hello world" "Skincare" = [] := by
  constructor
  · exact (verdict_dominance.1 _).1
      ⟨⟨"No disease treatment claims", "critical", ["cure"]⟩, by simp, rfl⟩
  · exact ((verdict_dominance.2 "hello world" "Skincare") (by decide)).1

/-- C2 counterexample: a reply object with no `variants` field is accepted
(the `.get` default makes it the empty list), and the orchestrator then
records an empty ChannelResult for the channel instead of raising. -/
theorem variants_absent_counterexample :
    extractVariants (Json.obj []) = Except.ok [] ∧
    generate_clicked "Skincare"
        [⟨"instagram", "Instagram Post", 2200, "Visual-first caption with hashtags"⟩]
        (fun _ => extractVariants (Json.obj [])) =
      Except.ok [⟨"instagram", "Instagram Post", []⟩] :=
  ⟨rfl, rfl⟩

/-- C2 (amended): a `variants` field that is present but not a sequence
fails the call with the protocol-violation error; an absent `variants`
field defaults to the empty sequence, and an empty sequence is accepted,
the orchestrator recording a ChannelResult with no variants for that
channel. -/
theorem variants_field_validation :
    (∀ (fields : List (String × Json)) (j : Json),
      assocLookup fields "variants" = some j → (∀ items, j ≠ Json.arr items) →
      extractVariants (Json.obj fields) =
        Except.error "Model response did not include a valid \x27variants\x27 array.") ∧
    (∀ fields : List (String × Json),
      assocLookup fields "variants" = none →
      extractVariants (Json.obj fields) = Except.ok []) ∧
    (∀ (category : String) (c : Channel),
      generate_clicked category [c] (fun _ => Except.ok []) =
        Except.ok [⟨c.id, c.name, []⟩]) := by
  refine ⟨?_, ?_, ?_⟩
  · intro fields j hl hne
    cases j with
    | arr items => exact absurd rfl (hne items)
    | null => simp [extractVariants, hl]
    | bool b => simp [extractVariants, hl]
    | num n => simp [extractVariants, hl]
    | str s => simp [extractVariants, hl]
    | obj o => simp [extractVariants, hl]
  · intro fields hl
    simp [extractVariants, hl]
  · intro category c
    rfl

/-- Witness for C2's amended theorem at concrete inputs. -/
theorem variants_field_validation_witness :
    extractVariants (Json.obj [("variants", Json.str "x")]) =
      Except.error "Model response did not include a valid \x27variants\x27 array." ∧
    extractVariants (Json.obj [("other", Json.num 1)]) = Except.ok [] ∧
    generate_clicked "Skincare" [⟨"sms", "SMS/WhatsApp", 160, "Short promotional message"⟩]
        (fun _ => Except.ok []) =
      Except.ok [⟨"sms", "SMS/WhatsApp", []⟩] :=
  ⟨variants_field_validation.1 _ _ rfl (fun _ h => Json.noConfusion h),
   variants_field_validation.2.1 _ rfl,
   variants_field_validation.2.2 _ _⟩

/-- C3 counterexample: a product whose category is absent from the rule
catalog does not make prompt composition fail — the composer proceeds with
the empty rule list of `COMPLIANCE_RULES.get(category, [])`. -/
theorem compose_unknown_category_counterexample :
    assocLookup COMPLIANCE_RULES "Toys" = none ∧
    (compose_prompts ⟨"p9", "Toy Blaster", "Toys", "PureGlow Naturals", [], [], "", "", "", ""⟩
        ⟨"instagram", "Instagram Post", 2200, "Visual-first caption with hashtags"⟩
        "Professional" "General" 2 "").isOk = true :=
  ⟨rfl, rfl⟩

/-- C3 (amended): a product whose brand key is absent from the brand style
guides makes prompt composition fail fast with the `KeyError`
configuration-error signal; a category key absent from the rule catalog is
not an error — composition succeeds with an empty rule list. -/
theorem compose_brand_guard :
    (∀ (product : Product) (channel : Channel) (tone season : String)
        (num_variants : Nat) (custom_prompt : String),
      assocLookup BRAND_STYLE_GUIDES product.brand = none →
      compose_prompts product channel tone season num_variants custom_prompt =
        Except.error ("KeyError: " ++ product.brand)) ∧
    (∀ (product : Product) (channel : Channel) (tone season : String)
        (num_variants : Nat) (custom_prompt : String) (g : BrandGuide),
      assocLookup BRAND_STYLE_GUIDES product.brand = some g →
      (compose_prompts product channel tone season num_variants custom_prompt).isOk = true) := by
  constructor
  · intro p ch tone season n cp h
    simp [compose_prompts, h]
  · intro p ch tone season n cp g h
    simp only [compose_prompts, h]
    rfl

/-- Witness for C3's amended theorem at concrete inputs. -/
theorem compose_brand_guard_witness :
    compose_prompts ⟨"px", "X", "Skincare", "NoSuchBrand", [], [], "", "", "", ""⟩
        ⟨"sms", "SMS/WhatsApp", 160, "Short promotional message"⟩
        "Professional" "General" 1 "" =
      Except.error ("KeyError: " ++ "NoSuchBrand") ∧
    (compose_prompts ⟨"p1", "PureGlow Vitamin C Serum", "Skincare", "PureGlow Naturals",
          [], [], "", "", "", ""⟩
        ⟨"sms", "SMS/WhatsApp", 160, "Short promotional message"⟩
        "Professional" "General" 1 "").isOk = true :=
  ⟨compose_brand_guard.1 _ _ _ _ _ _ rfl,
   compose_brand_guard.2 _ _ _ _ _ _ _ rfl⟩

/-- C4: rule matching is word-boundary safe — the boundary-anchored
Skincare disease-treatment rule does not fire on "the curettage procedure"
(nor on other texts whose only occurrences of rule terms sit inside
unrelated words), but does fire on "this will cure it". -/
theorem word_boundary_matching :
    check_compliance "the curettage procedure" "Skincare" = [] ∧
    check_compliance "this will cure it" "Skincare" =
      [⟨"No disease treatment claims", "critical", ["cure"]⟩] ∧
    check_compliance "healing treatments secured" "Skincare" = [] :=
  ⟨by decide, by decide, by decide⟩

/-- C5: the matched-term set inside each emitted issue is deduplicated and
lexicographically sorted; in particular a text containing "cure" twice and
"heal" once yields matched terms ["cure", "heal"]. -/
theorem matched_terms_sorted_dedup :
    (∀ text category : String, ∀ i ∈ check_compliance text category,
      i.matchedTerms.Sorted (fun a b => strLe a b = true) ∧ i.matchedTerms.Nodup) ∧
    check_compliance "cure today then cure again and heal" "Skincare" =
      [⟨"No disease treatment claims", "critical", ["cure", "heal"]⟩] := by
  constructor
  · intro text category i hi
    simp only [check_compliance] at hi
    obtain ⟨r, hr, hfr⟩ := List.mem_filterMap.mp hi
    by_cases hms : (findallAnch r.alts text).isEmpty
    · simp [hms] at hfr
    · simp only [hms, if_neg, Bool.false_eq_true, ite_false, Option.some.injEq] at hfr
      subst hfr
      exact ⟨uniqueSorted_sorted _, uniqueSorted_nodup _⟩
  · decide

/-- Witness for C5 at the concrete evaluation of its second conjunct. -/
theorem matched_terms_sorted_dedup_witness :
    (["cure", "heal"] : List String).Sorted (fun a b => strLe a b = true) ∧
    (["cure", "heal"] : List String).Nodup := by
  have h := matched_terms_sorted_dedup
  have hmem : (⟨"No disease treatment claims", "critical", ["cure", "heal"]⟩ : Issue) ∈
      check_compliance "cure today then cure again and heal" "Skincare" := by
    rw [h.2]
    exact List.mem_singleton_self _
  exact h.1 _ _ _ hmem

/-- C6: for every requested channel sequence, an orchestrator run that
succeeds yields its ChannelResults in exactly the request order (ids and
names in one-to-one positional correspondence). -/
theorem orchestrator_request_order :
    ∀ (category : String) (channels : List Channel)
      (gen : Channel → Except String (List Json)) (results : List ChannelResult),
      channels ≠ [] →
      generate_clicked category channels gen = Except.ok results →
      results.map (fun r => (r.channel_id, r.channel_name)) =
        channels.map (fun c => (c.id, c.name)) := by
  intro category channels gen results hne h
  have hemp : channels.isEmpty = false := by
    cases channels with
    | nil => exact absurd rfl hne
    | cons c rest => rfl
  simp only [generate_clicked, hemp, Bool.false_eq_true, if_false] at h
  exact run_channels_ok_map category gen channels results h

/-- Witness for C6 at a concrete two-channel request. -/
theorem orchestrator_request_order_witness :
    ([⟨"instagram", "Instagram Post", []⟩, ⟨"sms", "SMS/WhatsApp", []⟩] :
        List ChannelResult).map (fun r => (r.channel_id, r.channel_name)) =
      ([⟨"instagram", "Instagram Post", 2200, "Visual-first caption with hashtags"⟩,
        ⟨"sms", "SMS/WhatsApp", 160, "Short promotional message"⟩] :
        List Channel).map (fun c => (c.id, c.name)) :=
  orchestrator_request_order "Skincare" _ (fun _ => Except.ok []) _ (by simp) rfl

/-- C7: an empty requested channel set is rejected with the validation
message, uniformly in the generation client (so before any generation call
or network activity), and no ChannelResult is produced. -/
theorem empty_channel_selection_rejected :
    ∀ (category : String) (gen : Channel → Except String (List Json)),
      generate_clicked category [] gen = Except.error "Select at least one channel." :=
  fun _ _ => rfl

/-- C8: compliance evaluation is deterministic — two evaluations of equal
text against equal category yield identical issue sequences. -/
theorem check_compliance_deterministic :
    ∀ text₁ text₂ category₁ category₂ : String,
      text₁ = text₂ → category₁ = category₂ →
      check_compliance text₁ category₁ = check_compliance text₂ category₂ := by
  intro t1 t2 c1 c2 h1 h2
  rw [h1, h2]

/-- Witness for C8 at a concrete repeated evaluation. -/
theorem check_compliance_deterministic_witness :
    check_compliance "this will cure it" "Skincare" =
      check_compliance "this will cure it" "Skincare" :=
  check_compliance_deterministic _ _ _ _ rfl rfl

/-- C9: every emitted issue has a non-empty matched-term set; the emitted
(name, severity) pairs form a sublist of the category's rules in
declaration order (so each issue comes from a distinct rule, at most one
issue per rule); and the issue count never exceeds the rule count. -/
theorem check_compliance_invariants :
    ∀ text category : String,
      (∀ i ∈ check_compliance text category, i.matchedTerms ≠ []) ∧
      List.Sublist
        ((check_compliance text category).map (fun i => (i.rule, i.severity)))
        ((rulesFor category).map (fun r => (r.rule, r.severity))) ∧
      (check_compliance text category).length ≤ (rulesFor category).length := by
  intro text category
  refine ⟨?_, ?_, ?_⟩
  · intro i hi
    simp only [check_compliance] at hi
    obtain ⟨r, hr, hfr⟩ := List.mem_filterMap.mp hi
    by_cases hms : (findallAnch r.alts text).isEmpty
    · simp [hms] at hfr
    · simp only [hms, Bool.false_eq_true, ite_false, Option.some.injEq] at hfr
      subst hfr
      exact uniqueSorted_ne_nil (fun hnil => hms (by simp [hnil]))
  · simp only [check_compliance]
    apply filterMap_map_sublist
    intro r i hfi
    by_cases hms : (findallAnch r.alts text).isEmpty
    · simp [hms] at hfi
    · simp only [hms, Bool.false_eq_true, ite_false, Option.some.injEq] at hfi
      subst hfi
      rfl
  · simp only [check_compliance]
    exact List.length_filterMap_le _ _

/-- Witness for C9 at a concrete evaluation. -/
theorem check_compliance_invariants_witness :
    (["cure"] : List String) ≠ [] ∧
    (check_compliance "this will cure it" "Skincare").length ≤
      (rulesFor "Skincare").length := by
  refine ⟨?_, (check_compliance_invariants "this will cure it" "Skincare").2.2⟩
  exact (check_compliance_invariants "this will cure it" "Skincare").1
    ⟨"No disease treatment claims", "critical", ["cure"]⟩ (by decide)

/-- Assigning the two reserved keys to a dict that contains neither appends
them, in order, leaving every existing entry untouched. -/
lemma dictSet_reserved_append {fields : List (String × Json)}
    (h1 : assocLookup fields "_compliance_issues" = none)
    (h2 : assocLookup fields "_compliance_score" = none) (X Y : Json) :
    dictSet (dictSet fields "_compliance_issues" X) "_compliance_score" Y =
      fields ++ [("_compliance_issues", X), ("_compliance_score", Y)] := by
  have hx : assocLookup [("_compliance_issues", X)] "_compliance_score" = none := by
    simp only [assocLookup]
    rw [if_neg (by decide)]
  rw [dictSet_of_lookup_none h1, dictSet_of_lookup_none (assocLookup_append_none h2 hx)]
  simp

/-- C10 counterexample: a raw variant that already carries a
`_compliance_score` field has that reply field overwritten by enrichment
("great" becomes "Compliant"), so not every field of the generation reply
is left unchanged. -/
theorem enrichment_overwrite_counterexample :
    enrich_variant "Skincare"
        (Json.obj [("headline", Json.str "hi"), ("_compliance_score", Json.str "great")]) =
      Except.ok (Json.obj
        [("headline", Json.str "hi"), ("_compliance_score", Json.str "Compliant"),
         ("_compliance_issues", Json.arr [])]) ∧
    ("great" : String) ≠ "Compliant" :=
  ⟨rfl, by decide⟩

/-- C10 (amended): for every raw variant object that does not already use
the reserved field names, enrichment appends exactly the two system-derived
fields (`_compliance_issues`, `_compliance_score`) and leaves every reply
field unchanged in place; if a reply reuses a reserved name that entry is
overwritten instead.  The number and order of variants within the channel
are preserved by the enrichment loop: the output list corresponds
position by position to the input list, the entry at each position being
the enrichment of the raw variant at that same position. -/
theorem enrichment_frame :
    (∀ (category : String) (fields : List (String × Json)),
      assocLookup fields "_compliance_issues" = none →
      assocLookup fields "_compliance_score" = none →
      ∃ issuesV scoreV,
        enrich_variant category (Json.obj fields) =
          Except.ok (Json.obj (fields ++
            [("_compliance_issues", issuesV), ("_compliance_score", scoreV)]))) ∧
    (∀ (category : String) (vs es : List Json),
      enrich_all category vs = Except.ok es →
      es.length = vs.length ∧
      List.Forall₂ (fun v e => enrich_variant category v = Except.ok e) vs es) := by
  constructor
  · intro category fields h1 h2
    refine ⟨issuesJson (check_compliance (getText fields "headline" ++ " " ++
        getText fields "body" ++ " " ++ getText fields "cta") category),
      Json.str (get_compliance_score (check_compliance (getText fields "headline" ++ " " ++
        getText fields "body" ++ " " ++ getText fields "cta") category)), ?_⟩
    simp only [enrich_variant]
    rw [dictSet_reserved_append h1 h2]
  · intro category vs
    induction vs with
    | nil =>
      intro es h
      simp only [enrich_all, Except.ok.injEq] at h
      subst h
      exact ⟨rfl, List.Forall₂.nil⟩
    | cons v rest ih =>
      intro es h
      cases hv : enrich_variant category v with
      | error e => simp [enrich_all, hv] at h
      | ok e =>
        cases hr : enrich_all category rest with
        | error err => simp [enrich_all, hv, hr] at h
        | ok es' =>
          simp only [enrich_all, hv, hr, Except.ok.injEq] at h
          subst h
          obtain ⟨hlen, hcorr⟩ := ih es' hr
          exact ⟨by simp [hlen], List.Forall₂.cons hv hcorr⟩

/-- Witness for C10 at a concrete variant and a concrete one-variant
enrichment run. -/
theorem enrichment_frame_witness :
    (enrich_variant "Skincare" (Json.obj [("headline", Json.str "x")])).isOk = true ∧
    List.Forall₂ (fun v e => enrich_variant "Skincare" v = Except.ok e)
      [Json.obj [("headline", Json.str "x")]]
      [Json.obj [("headline", Json.str "x"), ("_compliance_issues", Json.arr []),
        ("_compliance_score", Json.str "Compliant")]] := by
  constructor
  · obtain ⟨X, Y, h⟩ := enrichment_frame.1 "Skincare" [("headline", Json.str "x")] rfl rfl
    rw [h]
    rfl
  · exact (enrichment_frame.2 "Skincare" [Json.obj [("headline", Json.str "x")]]
      [Json.obj [("headline", Json.str "x"), ("_compliance_issues", Json.arr []),
        ("_compliance_score", Json.str "Compliant")]] rfl).2
